import Mathlib

/-
Verification of the vocalist-attribution parser and statistics summarizer
of the singer-stats repository (src/src/processors/lyrics.js), as a shallow
embedding over lists of characters.  JavaScript strings are modelled as
`List Char`; JavaScript objects (insertion-ordered string-keyed maps) are
modelled as association lists; JavaScript numbers are modelled exactly
(naturals for the integer counters, rationals for the percentage
arithmetic).  Scanning loops that the source expresses through global
regular-expression replacement are modelled as explicit left-to-right
scanners; where a scanner consumes more than one character per step it
takes an explicit fuel argument, always called with fuel at least the
length of the input, so every definition is structurally recursive and
kernel-evaluable.
-/

set_option maxRecDepth 20000

namespace SingerStats

/-- A JavaScript string as a list of characters. -/
abbrev Str := List Char

/-- Whitespace as recognised by the regex class \s and by String.prototype.trim
(restricted to the ASCII range, which is all the source data uses). -/
def jsIsWs (c : Char) : Bool :=
  c = ' ' || c = '\t' || c = '\n' || c = '\r' || c = '\x0b' || c = '\x0c'

/-- JavaScript String.prototype.trim. -/
def jsTrim (l : Str) : Str :=
  ((l.dropWhile jsIsWs).reverse.dropWhile jsIsWs).reverse

/-- JavaScript String.prototype.includes for a literal substring. -/
def containsSub (sub : Str) : Str → Bool
  | [] => sub.isPrefixOf []
  | c :: rest => sub.isPrefixOf (c :: rest) || containsSub sub rest

/-- Replace the first occurrence of the literal substring sub by repl:
JavaScript String.prototype.replace with a plain-string pattern. -/
def replaceFirstSub (sub repl : Str) : Str → Str
  | [] => []
  | c :: rest =>
    if sub ≠ [] ∧ sub.isPrefixOf (c :: rest) then
      repl ++ (c :: rest).drop sub.length
    else
      c :: replaceFirstSub sub repl rest

/-- Fuel-driven worker for replaceAllSub. -/
def replaceAllSubGo (sub repl : Str) : Nat → Str → Str
  | _, [] => []
  | 0, l => l
  | fuel + 1, c :: rest =>
    if sub ≠ [] ∧ sub.isPrefixOf (c :: rest) then
      repl ++ replaceAllSubGo sub repl fuel ((c :: rest).drop sub.length)
    else
      c :: replaceAllSubGo sub repl fuel rest

/-- Replace every occurrence of the literal substring sub by repl, scanning
left to right without rescanning the replacement: a global regex replace of
an escaped literal pattern. -/
def replaceAllSub (sub repl l : Str) : Str :=
  replaceAllSubGo sub repl l.length l

/-- Fuel-driven worker for collapseWs. -/
def collapseWsGo : Nat → Str → Str
  | _, [] => []
  | 0, l => l
  | fuel + 1, c :: rest =>
    if jsIsWs c then ' ' :: collapseWsGo fuel (rest.dropWhile jsIsWs)
    else c :: collapseWsGo fuel rest

/-- The global replace of runs of whitespace by a single space. -/
def collapseWs (l : Str) : Str :=
  collapseWsGo l.length l

/-- Fuel-driven worker for splitOnSub. -/
def splitOnSubGo (sep : Str) : Nat → Str → Str → List Str
  | _, acc, [] => [acc]
  | 0, acc, l => [acc ++ l]
  | fuel + 1, acc, c :: rest =>
    if sep ≠ [] ∧ sep.isPrefixOf (c :: rest) then
      acc :: splitOnSubGo sep fuel [] ((c :: rest).drop sep.length)
    else
      splitOnSubGo sep fuel (acc ++ [c]) rest

/-- JavaScript String.prototype.split with a literal separator. -/
def splitOnSub (sep l : Str) : List Str :=
  splitOnSubGo sep l.length [] l

/-- The rest of the list after the first occurrence of a given character,
or none when the character does not occur. -/
def afterChar? (t : Char) : Str → Option Str
  | [] => none
  | c :: rest => if c = t then some rest else afterChar? t rest

/-- Fuel-driven worker for stripTags.  On a < it removes everything up to
and including the next >; a < with no later > stays literal, exactly the
behaviour of the global regex replace of tag-shaped chunks by the empty
string in the source (line.replace of every tag chunk). -/
def stripTagsGo : Nat → Str → Str
  | _, [] => []
  | 0, l => l
  | fuel + 1, c :: rest =>
    if c = '<' then
      match afterChar? '>' rest with
      | some after => stripTagsGo fuel after
      | none => c :: stripTagsGo fuel rest
    else c :: stripTagsGo fuel rest

/-- Remove every tag-shaped chunk from a line. -/
def stripTags (l : Str) : Str :=
  stripTagsGo l.length l

/-- Number of nonempty tokens after splitting on runs of whitespace:
split followed by the filter that keeps nonempty words, as in the source. -/
def countWordsGo : Bool → Str → Nat
  | _, [] => 0
  | inWord, c :: rest =>
    if jsIsWs c then countWordsGo false rest
    else (if inWord then 0 else 1) + countWordsGo true rest

/-- Word count of a cleaned line. -/
def countWords (l : Str) : Nat :=
  countWordsGo false l

/-- Leading-marker test for a literal given as a Lean string. -/
def startsWithLit (s : String) (l : Str) : Bool :=
  s.data.isPrefixOf l

/-- One regex match of a formatted-span pattern inside a vocalist list:
the matched substring, the trimmed capture, the format label and the
character offsets, as collected into allMatches by the source.  The field
the source calls end is called stop here. -/
structure TagMatch where
  fullMatch : Str
  content : Str
  format : String
  start : Nat
  stop : Nat
deriving DecidableEq

/-- A parsed vocalist name together with its format label. -/
structure VocalistSpec where
  name : String
  format : String
deriving DecidableEq

/-- Fuel-driven worker for scanTagged.  A pattern such as the bold family
matches at a position exactly when the opening literal is followed by a
nonempty run of characters other than < that is immediately followed by
the closing literal; this is the only way the greedy capture of the
source regexes can succeed.  Matching continues after each match and
advances one character on failure, as a global regex exec loop does. -/
def scanTaggedGo (openL closeL : Str) (fmt : String) : Nat → Nat → Str → List TagMatch
  | _, _, [] => []
  | 0, _, _ => []
  | fuel + 1, pos, c :: rest =>
    if openL.isPrefixOf (c :: rest) then
      let afterOpen := (c :: rest).drop openL.length
      let inner := afterOpen.takeWhile (fun d => d ≠ '<')
      let afterInner := afterOpen.dropWhile (fun d => d ≠ '<')
      if inner ≠ [] ∧ closeL.isPrefixOf afterInner then
        let len := openL.length + inner.length + closeL.length
        ⟨(c :: rest).take len, jsTrim inner, fmt, pos, pos + len⟩ ::
          scanTaggedGo openL closeL fmt fuel (pos + len) ((c :: rest).drop len)
      else
        scanTaggedGo openL closeL fmt fuel (pos + 1) rest
    else
      scanTaggedGo openL closeL fmt fuel (pos + 1) rest

/-- All matches of one formatted-span pattern family, in position order. -/
def scanTagged (openS closeS : String) (fmt : String) (text : Str) : List TagMatch :=
  scanTaggedGo openS.data closeS.data fmt text.length 0 text

/-- The pooled matches of the four pattern families, in the order the
source pushes them: both nested bold-italic shapes first, then bold,
then italic. -/
def allTagMatches (text : Str) : List TagMatch :=
  scanTagged "<b><i>" "</i></b>" "bold-italic" text ++
  scanTagged "<i><b>" "</b></i>" "bold-italic" text ++
  scanTagged "<b>" "</b>" "bold" text ++
  scanTagged "<i>" "</i>" "italic" text

/-- Stable insertion into a list sorted by start offset. -/
def insertByStart (m : TagMatch) : List TagMatch → List TagMatch
  | [] => [m]
  | x :: xs => if m.start ≤ x.start then m :: x :: xs else x :: insertByStart m xs

/-- Stable sort by start offset, as the comparator sort of the source. -/
def sortByStart : List TagMatch → List TagMatch
  | [] => []
  | x :: xs => insertByStart x (sortByStart xs)

/-- The overlap test of the source: a candidate overlaps an already kept
match when its start or its end falls inside the kept range. -/
def overlapsB (m e : TagMatch) : Bool :=
  (e.start ≤ m.start && m.start < e.stop) || (e.start < m.stop && m.stop ≤ e.stop)

/-- First-wins overlap resolution over the position-sorted pool. -/
def filterOverlaps (ms : List TagMatch) : List TagMatch :=
  ms.foldl (fun acc m => if acc.any (overlapsB m) then acc else acc ++ [m]) []

/-- The matches kept after sorting and overlap resolution. -/
def keptMatches (text : Str) : List TagMatch :=
  filterOverlaps (sortByStart (allTagMatches text))

/-- Decode the HTML ampersand entity in a vocalist name. -/
def processVocalistName (name : Str) : Str :=
  replaceAllSub "&amp;".data "&".data name

/-- Strip a leading case-insensitive literal with-then-space from the
captured content, then trim, as the source does before using the content
as a name. -/
def stripLeadingWith (content : Str) : Str :=
  if (content.take 5).map Char.toLower = "with ".data then
    jsTrim (content.drop 5)
  else
    content

/-- The placeholder the source substitutes for a removed span. -/
def removedMarker : Str := "|||REMOVED|||".data

/-- Accumulator of the loop over kept matches: the specs collected so far
and the working copy of the vocalist-list string. -/
structure ExtractAcc where
  vocalists : List VocalistSpec
  workingText : Str
deriving DecidableEq

/-- The body of the loop over kept matches: a match with nonempty content
after with-stripping yields a spec and has its first occurrence in the
working text replaced by the placeholder; a match whose content is empty
is skipped entirely, leaving the working text untouched. -/
def processMatch (acc : ExtractAcc) (m : TagMatch) : ExtractAcc :=
  let content := stripLeadingWith m.content
  if content ≠ [] then
    ⟨acc.vocalists ++ [⟨⟨processVocalistName content⟩, m.format⟩],
     replaceFirstSub m.fullMatch removedMarker acc.workingText⟩
  else
    acc

/-- Strip one leading ampersand entity together with its surrounding
whitespace: the anchored replace of the source runs at most once. -/
def stripLeadingAmp (l : Str) : Str :=
  let afterWs := l.dropWhile jsIsWs
  if "&amp;".data.isPrefixOf afterWs then
    (afterWs.drop "&amp;".data.length).dropWhile jsIsWs
  else l

/-- A delimiter character for the leading and trailing cleanup. -/
def isDelimCh (c : Char) : Bool :=
  c = ',' || c = '&' || jsIsWs c

/-- Remove a leading and a trailing run of delimiter characters. -/
def stripDelims (l : Str) : Str :=
  ((l.dropWhile isDelimCh).reverse.dropWhile isDelimCh).reverse

/-- Result of tagged extraction: the ordered specs and the residual text. -/
structure ExtractResult where
  vocalists : List VocalistSpec
  remainingText : Str
deriving DecidableEq

/-- The tag-aware extraction pass over a vocalist-list string. -/
def extractTaggedVocalists (text : Str) : ExtractResult :=
  let acc := (keptMatches text).foldl processMatch ⟨[], text⟩
  let remaining :=
    jsTrim (stripDelims (stripLeadingAmp (collapseWs
      (replaceAllSub removedMarker [] acc.workingText))))
  ⟨acc.vocalists, remaining⟩

/-- The canonical delimiter marker of the source. -/
def pipeMarker : Str := "|||".data

/-- Fuel-driven worker for replaceDelim.  A match of the delimiter regex
at a position is a possibly empty whitespace run, the literal token, and
a greedy trailing whitespace run; the scan advances one character when no
match starts at the current position. -/
def replaceDelimGo (tok : Str) : Nat → Str → Str
  | _, [] => []
  | 0, l => l
  | fuel + 1, c :: rest =>
    let afterWs := (c :: rest).dropWhile jsIsWs
    if tok ≠ [] ∧ tok.isPrefixOf afterWs then
      pipeMarker ++ replaceDelimGo tok fuel ((afterWs.drop tok.length).dropWhile jsIsWs)
    else
      c :: replaceDelimGo tok fuel rest

/-- Global replace of a whitespace-padded literal delimiter token by the
marker. -/
def replaceDelim (tok : String) (l : Str) : Str :=
  replaceDelimGo tok.data l.length l

/-- Case-insensitive match of the connective word at the head of a list. -/
def isWithWord (l : Str) : Bool :=
  (l.take 4).map Char.toLower = "with".data

/-- Fuel-driven worker for replaceWithWord: the case-insensitive global
replace of the connective word surrounded by at least one whitespace
character on each side. -/
def replaceWithWordGo : Nat → Str → Str
  | _, [] => []
  | 0, l => l
  | fuel + 1, c :: rest =>
    let ws := (c :: rest).takeWhile jsIsWs
    let afterWs := (c :: rest).dropWhile jsIsWs
    let afterWord := afterWs.drop 4
    if ws ≠ [] ∧ isWithWord afterWs ∧ (afterWord.takeWhile jsIsWs) ≠ [] then
      pipeMarker ++ replaceWithWordGo fuel (afterWord.dropWhile jsIsWs)
    else
      c :: replaceWithWordGo fuel rest

/-- Global replace of the whitespace-surrounded connective word. -/
def replaceWithWord (l : Str) : Str :=
  replaceWithWordGo l.length l

/-- Fuel-driven worker for collapsePipes: the source regex matches runs
of three or more pipe characters and rewrites each to the marker. -/
def collapsePipesGo : Nat → Str → Str
  | _, [] => []
  | 0, l => l
  | fuel + 1, c :: rest =>
    if c = '|' then
      let run := (c :: rest).takeWhile (fun d => d = '|')
      let after := (c :: rest).dropWhile (fun d => d = '|')
      if 3 ≤ run.length then pipeMarker ++ collapsePipesGo fuel after
      else run ++ collapsePipesGo fuel after
    else
      c :: collapsePipesGo fuel rest

/-- Collapse runs of three or more pipes to a single marker. -/
def collapsePipes (l : Str) : Str :=
  collapsePipesGo l.length l

/-- Strip one leading marker.  The final regex of normalizeDelimiters has
an empty alternative between its anchored alternatives, and an empty
alternative matches at every position before the trailing-marker branch
can be tried, so the replace only ever removes a marker at offset zero. -/
def stripLeadingMarker (l : Str) : Str :=
  if pipeMarker.isPrefixOf l then l.drop pipeMarker.length else l

/-- Normalize all delimiters of the residual string to the marker, in the
priority order of the source. -/
def normalizeDelimiters (text : Str) : Str :=
  stripLeadingMarker (collapsePipes (replaceDelim ","
    (replaceWithWord (replaceDelim "&" (replaceDelim "&amp;" text)))))

/-- Split the normalized text on the marker, trim each piece and drop the
empty ones. -/
def splitIntoSegments (text : Str) : List Str :=
  ((splitOnSub pipeMarker text).map jsTrim).filter (fun s => s ≠ [])

/-- Clean one segment: strip one surrounding parenthesis layer, collapse
whitespace and trim. -/
def cleanSegment (segment : Str) : Str :=
  let a := if "(".data.isPrefixOf segment then segment.drop 1 else segment
  let b := if a.getLast? = some ')' then a.dropLast else a
  jsTrim (collapseWs b)

/-- Delimiter-splitting pass over the untagged residual text. -/
def parseUntaggedText (text : Str) : List VocalistSpec :=
  if text = [] then []
  else
    (splitIntoSegments (normalizeDelimiters text)).filterMap (fun segment =>
      let cleaned := cleanSegment segment
      if cleaned ≠ [] then some ⟨⟨processVocalistName cleaned⟩, "plain"⟩ else none)

/-- Insertion into a JavaScript object: an existing key keeps its position
and takes the new value, a new key is appended. -/
def objInsert (k v : String) : List (String × String) → List (String × String)
  | [] => [(k, v)]
  | (k1, v1) :: rest =>
    if k1 = k then (k1, v) :: rest else (k1, v1) :: objInsert k v rest

/-- The vocalist-list parser: tagged specs first, then the untagged
residual, merged into one insertion-ordered map. -/
def parseVocalists (vocalistsPart : Str) : List (String × String) :=
  let tagged := extractTaggedVocalists vocalistsPart
  let m1 := tagged.vocalists.foldl (fun m v => objInsert v.name v.format m) []
  (parseUntaggedText tagged.remainingText).foldl
    (fun m v => objInsert v.name v.format m) m1

/-- First map entry carrying a given format label, as the find over the
entries of the vocalist map. -/
def findByFormat (fmt : String) (entries : List (String × String)) : Option String :=
  (entries.find? (fun e => e.2 == fmt)).map (fun e => e.1)

/-- Default attribution: the plain entry when one exists, else the first
entry, else the sentinel name. -/
def fallbackVocalist (entries : List (String × String)) : String :=
  match findByFormat "plain" entries with
  | some n => n
  | none =>
    match entries with
    | [] => "Unknown"
    | e :: _ => e.1

/-- Attribution of a line from its leading marker, with the fallthrough
of the source: each formatted branch only returns when the map has an
entry of that format. -/
def determineVocalist (line : Str) (vocalists : List (String × String)) : String :=
  if line ≠ [] ∧ line.head? ≠ some '<' then fallbackVocalist vocalists
  else
    match (if startsWithLit "<b><i>" line || startsWithLit "<i><b>" line then
             findByFormat "bold-italic" vocalists else none) with
    | some n => n
    | none =>
      match (if startsWithLit "<b>" line then findByFormat "bold" vocalists else none) with
      | some n => n
      | none =>
        match (if startsWithLit "<i>" line then findByFormat "italic" vocalists else none) with
        | some n => n
        | none => fallbackVocalist vocalists

/-- The bracketed content of a section-header line: the line must start
with an opening bracket, end with a closing bracket and hold a nonempty
bracket-free label between them. -/
def headerContent? (l : Str) : Option Str :=
  if l.length ≥ 3 ∧ l.head? = some '[' ∧ l.getLast? = some ']' ∧
     ']' ∉ (l.drop 1).dropLast then
    some ((l.drop 1).dropLast)
  else none

/-- Everything after the first colon, or none: the indexOf test of the
source together with the substring it takes. -/
def afterColon? : Str → Option Str
  | [] => none
  | c :: rest => if c = ':' then some rest else afterColon? rest

/-- First opening formatting marker of a line, as the capture of the
open-tag regex. -/
def findOpenTag : Str → Option String
  | [] => none
  | c :: rest =>
    if startsWithLit "<i>" (c :: rest) then some "i"
    else if startsWithLit "<b>" (c :: rest) then some "b"
    else findOpenTag rest

/-- Whether the line holds any closing formatting marker. -/
def hasCloseTag (l : Str) : Bool :=
  containsSub "</i>".data l || containsSub "</b>".data l

/-- Per-vocalist counters. -/
structure VStats where
  lines : Nat
  words : Nat
deriving DecidableEq

/-- One attributed lyric line. -/
structure AttributedLine where
  vocalist : String
  line : String
deriving DecidableEq

/-- The mutable state of the line loop of the source. -/
structure ParseState where
  currentVocalists : List (String × String)
  openFormattingTag : Option String
  openTagVocalist : Option String
  vocalistStats : List (String × VStats)
  result : List AttributedLine
deriving DecidableEq

/-- JavaScript truthiness of a nullable string. -/
def optTruthy : Option String → Bool
  | none => false
  | some s => s != ""

/-- Accumulate one attributed line into the statistics object. -/
def bumpStats (stats : List (String × VStats)) (v : String) (wc : Nat) :
    List (String × VStats) :=
  match stats with
  | [] => [(v, ⟨1, wc⟩)]
  | (k, s) :: rest =>
    if k = v then (k, ⟨s.lines + 1, s.words + wc⟩) :: rest
    else (k, s) :: bumpStats rest v wc

/-- Attribution of a line when no multi-line span is open: determine the
vocalist from the leading marker, and open a span when the line has an
opening marker but no closing one.  Returns the vocalist and the new
open-tag fields. -/
def closedAttribution (st : ParseState) (trimmedLine : Str) :
    String × Option String × Option String :=
  let vocalist := determineVocalist trimmedLine st.currentVocalists
  match findOpenTag trimmedLine, hasCloseTag trimmedLine with
  | some t, false => (vocalist, some t, some vocalist)
  | _, _ => (vocalist, st.openFormattingTag, st.openTagVocalist)

/-- Processing of one nonempty non-header line with a nonempty map. -/
def processLyric (st : ParseState) (trimmedLine : Str) : ParseState :=
  if st.currentVocalists = [] then st
  else
    let choice :=
      if optTruthy st.openFormattingTag && optTruthy st.openTagVocalist then
        let voc := st.openTagVocalist.getD "Unknown"
        let tag := st.openFormattingTag.getD ""
        if containsSub ("</" ++ tag ++ ">").data trimmedLine then
          ((voc, none, none) : String × Option String × Option String)
        else (voc, st.openFormattingTag, st.openTagVocalist)
      else closedAttribution st trimmedLine
    let wordCount := countWords (jsTrim (stripTags trimmedLine))
    { st with
      openFormattingTag := choice.2.1
      openTagVocalist := choice.2.2
      vocalistStats := bumpStats st.vocalistStats choice.1 wordCount
      result := st.result ++ [⟨choice.1, ⟨trimmedLine⟩⟩] }

/-- Processing of a section-header line: the open-tag state is reset
unconditionally, and a colon replaces the active map with the parse of
the text after it. -/
def processHeader (st : ParseState) (content : Str) : ParseState :=
  let st1 : ParseState := { st with openFormattingTag := none, openTagVocalist := none }
  match afterColon? content with
  | some after => { st1 with currentVocalists := parseVocalists (jsTrim after) }
  | none => st1

/-- One iteration of the line loop of parseLyricsWithVocalists. -/
def processLine (st : ParseState) (line : Str) : ParseState :=
  let trimmedLine := jsTrim line
  if trimmedLine = [] then st
  else
    match headerContent? trimmedLine with
    | some content => processHeader st content
    | none => processLyric st trimmedLine

/-- The initial state of the line loop. -/
def initState : ParseState := ⟨[], none, none, [], []⟩

/-- The two outputs of the parser. -/
structure ParseResult where
  parsedLyrics : List AttributedLine
  vocalistStats : List (String × VStats)
deriving DecidableEq

/-- The whole parser: split into lines, run the line loop, return the
attributed lines and the statistics. -/
def parseLyricsWithVocalists (lyricsText : String) : ParseResult :=
  let lines := splitOnSub "\n".data lyricsText.data
  let final := lines.foldl processLine initState
  ⟨final.result, final.vocalistStats⟩

/-- A JavaScript value that is either a number or a string, capturing the
two types the percentage fields can take. -/
inductive JsVal where
  | num : ℚ → JsVal
  | str : String → JsVal
deriving DecidableEq

/-- Whether a value is a string. -/
def JsVal.isStr : JsVal → Bool
  | .num _ => false
  | .str _ => true

/-- A finite nonnegative binary64 value, held exactly: the value is
m / 2 ^ exp2.  The percentages of the summarizer are computed in
JavaScript number arithmetic, which is binary64, so the embedding
carries the exact value of each intermediate double. -/
structure DoubleVal where
  m : ℕ
  exp2 : ℕ
deriving DecidableEq

/-- Fuel-driven worker for natLog2. -/
def natLog2Go : Nat → Nat → Nat
  | 0, _ => 0
  | fuel + 1, n => if n ≤ 1 then 0 else natLog2Go fuel (n / 2) + 1

/-- Floor of the base-two logarithm of a positive natural. -/
def natLog2 (n : ℕ) : ℕ :=
  natLog2Go n n

/-- Round num / den to the nearest integer, ties to even (den positive):
the rounding of IEEE 754 binary64 arithmetic. -/
def roundNearestEven (num den : ℕ) : ℕ :=
  let q := num / den
  let r := num % den
  if 2 * r < den then q
  else if den < 2 * r then q + 1
  else if q % 2 = 0 then q else q + 1

/-- Whether 2 ^ d ≤ a / b, by integer arithmetic. -/
def pow2LE (d : ℤ) (a b : ℕ) : Bool :=
  if 0 ≤ d then decide (b * 2 ^ d.toNat ≤ a) else decide (b ≤ a * 2 ^ (-d).toNat)

/-- Floor of the base-two logarithm of a / b, for positive a and b: the
difference of the integer logarithms is exact or one too large, and one
comparison settles which. -/
def ratLog2 (a b : ℕ) : ℤ :=
  let d : ℤ := (natLog2 a : ℤ) - (natLog2 b : ℤ)
  if pow2LE d a b then d else d - 1

/-- The binary64 double nearest to a / b (b positive), ties to even: the
exact value of the JavaScript quotient of the two numbers.  The
significand scale puts the mantissa in the 53-bit window, clamped at the
subnormal floor; overflow cannot arise at the magnitudes the summarizer
produces (all its quotients lie in the unit interval and are then scaled
by one hundred). -/
def nearestDouble (a b : ℕ) : DoubleVal :=
  if a = 0 then ⟨0, 0⟩
  else
    let e : ℤ := ratLog2 a b - 52
    let ee : ℤ := max e (-1074)
    if 0 ≤ ee then
      ⟨roundNearestEven a (b * 2 ^ ee.toNat) * 2 ^ ee.toNat, 0⟩
    else
      let s := (-ee).toNat
      ⟨roundNearestEven (a * 2 ^ s) b, s⟩

/-- Number.prototype.toFixed with one fraction digit on the exact value
of a nonnegative double: per ECMA, the integer of tenths nearest the
value, the larger one on a tie, printed with one decimal digit.  The
floor of 10 m / 2 ^ s + 1 / 2 is taken in integer arithmetic. -/
def toFixed1 (d : DoubleVal) : String :=
  let n := (20 * d.m + 2 ^ d.exp2) / 2 ^ (d.exp2 + 1)
  toString (n / 10) ++ "." ++ toString (n % 10)

/-- The percentage string of the summarizer for one counter against its
total: the counter is divided by the total in binary64, the quotient is
multiplied by one hundred in binary64, and the product is formatted by
toFixed with one digit — the exact pipeline of the source expression.
The integer counters themselves are held exactly; this matches the
JavaScript numbers whenever the counters stay below 2 ^ 53, which the
parser guarantees since each counter is bounded by the input length. -/
def jsPercentString (part total : ℕ) : String :=
  let d1 := nearestDouble part total
  toFixed1 (nearestDouble (100 * d1.m) (2 ^ d1.exp2))

/-- One vocalist entry of the summary: the original counters spread in
next to the two percentage fields. -/
structure SummaryEntry where
  linesPercentage : JsVal
  wordsPercentage : JsVal
  lines : Nat
  words : Nat
deriving DecidableEq

/-- The summary object. -/
structure StatsSummary where
  totalLines : Nat
  totalWords : Nat
  vocalistCount : Nat
  vocalistStats : List (String × SummaryEntry)
deriving DecidableEq

/-- The statistics summarizer: totals by reduction over the entries, the
vocalist count, and per-vocalist percentage fields that are decimal
strings — the counter over the total times one hundred, computed in
binary64 and formatted by toFixed — when the corresponding total is
positive, and the number zero otherwise.  The keys of the input object
are unique, so the forEach of the source that assigns into a fresh
object is a direct map. -/
def generateStatsSummary (vocalistStats : List (String × VStats)) : StatsSummary :=
  let totalLines := vocalistStats.foldl (fun sum s => sum + s.2.lines) 0
  let totalWords := vocalistStats.foldl (fun sum s => sum + s.2.words) 0
  let vocalistCount := vocalistStats.length
  let entries := vocalistStats.map (fun p =>
    (p.1,
      { linesPercentage :=
          if 0 < totalLines then
            JsVal.str (jsPercentString p.2.lines totalLines)
          else JsVal.num 0
        wordsPercentage :=
          if 0 < totalWords then
            JsVal.str (jsPercentString p.2.words totalWords)
          else JsVal.num 0
        lines := p.2.lines
        words := p.2.words }))
  ⟨totalLines, totalWords, vocalistCount, entries⟩

/-
Proof-support definitions.  These are not part of the embedding of the
source; they only name concepts the theorems below quantify over.
-/

/-- A line text wrapped in the bold markers. -/
def wrapB (t : Str) : Str := "<b>".data ++ t ++ "</b>".data

/-- A line text wrapped in the italic markers. -/
def wrapI (t : Str) : Str := "<i>".data ++ t ++ "</i>".data

/-- The per-line word count of the parser: markers stripped, trimmed,
split on whitespace runs, empty tokens ignored. -/
def lineWC (s : String) : Nat :=
  countWords (jsTrim (stripTags s.data))

/-- The claim-side percentage: part / total * 100 as an exact rational,
rounded to one decimal place with the tie-to-larger rule of toFixed.
This follows the specification's words and is compared against the
binary64 pipeline the program actually runs; the floor of
1000 part / total + 1 / 2 is taken in integer arithmetic. -/
def exactPercentString (part total : ℕ) : String :=
  let n := (2000 * part + total) / (2 * total)
  toString (n / 10) ++ "." ++ toString (n % 10)

/-- Value stored under a key in a statistics object (first occurrence). -/
def statLookup (stats : List (String × VStats)) (v : String) : Option VStats :=
  (stats.find? (fun p => p.1 == v)).map (fun p => p.2)

/-- The attributed lines carrying a given vocalist. -/
def vocLines (res : List AttributedLine) (v : String) : List AttributedLine :=
  res.filter (fun e => e.vocalist == v)

/-- The statistics a list of attributed lines determines for a vocalist:
none when the vocalist owns no line, otherwise the number of its lines
and the sum of their word counts. -/
def statsOf (res : List AttributedLine) (v : String) : Option VStats :=
  if vocLines res v = [] then none
  else some ⟨(vocLines res v).length, ((vocLines res v).map (fun e => lineWC e.line)).sum⟩

/-- Consistency of a statistics object with a list of attributed lines. -/
def StatsConsistent (res : List AttributedLine) (stats : List (String × VStats)) : Prop :=
  ∀ v, statLookup stats v = statsOf res v

/-- The multi-line bold span sample of the specification: one bold
vocalist, three lyric lines, the opening marker only on the first line
and the closing marker only on the third. -/
def c1Text : String :=
  "[Chorus: <b>AJ</b>]\n<b>first line\nsecond line\nthird line</b>"

/-- The state of the line loop after the sample lyrics. -/
def c1FinalState : ParseState :=
  (splitOnSub "\n".data c1Text.data).foldl processLine initState

/-
Theorems.
-/

/-- C6: the vocalist-list parser on the duo example returns exactly the
two entries, the tagged duo name with italic format (the ampersand inside
the single italic span does not split the name) and the untagged plain
name (the comma in the untagged residual does split). -/
theorem c6_duo_name_preserved :
    parseVocalists "AJ, <i>AJ & Brian</i>".data =
      [("AJ & Brian", "italic"), ("AJ", "plain")] := by
  decide

/-- C7: the vocalist-list parser strips the case-insensitive connective
word from the front of the tagged span before using the remainder as the
name, yielding exactly a plain entry and an italic entry. -/
theorem c7_with_prefix_stripped :
    parseVocalists "Nick <i>with Brian</i>".data =
      [("Brian", "italic"), ("Nick", "plain")] := by
  decide

/-- C2 counterexample: on the input holding one bold span with blank
inner text, the single kept match (whose matched substring is the whole
input) contributes no spec, but its matched substring is also never
removed from the working copy: the residual string is the untouched
input, in which the matched substring still occurs.  The removal step of
the source is guarded by the nonemptiness of the stripped content, so the
claim that every kept match is removed from the working copy fails. -/
theorem c2_counterexample :
    (keptMatches "<b> </b>".data).map (fun m => m.fullMatch) = ["<b> </b>".data] ∧
    (extractTaggedVocalists "<b> </b>".data).remainingText = "<b> </b>".data ∧
    containsSub "<b> </b>".data
      (extractTaggedVocalists "<b> </b>".data).remainingText = true ∧
    (extractTaggedVocalists "<b> </b>".data).vocalists = [] := by
  decide

/-- C2 amended: the loop body over kept matches removes the first
occurrence of the matched substring from the working copy and emits a
spec exactly when the inner text is nonempty after trimming and
with-stripping; a kept match with empty stripped inner text contributes
no spec and leaves the working copy unchanged, so its substring can
survive into the residual string. -/
theorem c2_kept_match_removal (acc : ExtractAcc) (m : TagMatch) :
    (stripLeadingWith m.content = [] → processMatch acc m = acc) ∧
    (stripLeadingWith m.content ≠ [] →
      processMatch acc m =
        ⟨acc.vocalists ++ [⟨⟨processVocalistName (stripLeadingWith m.content)⟩, m.format⟩],
         replaceFirstSub m.fullMatch removedMarker acc.workingText⟩) := by
  constructor <;> intro h <;> simp [processMatch, h]

/-- Witness for the amended C2 theorem at a concrete kept match. -/
theorem c2_kept_match_removal_witness :
    stripLeadingWith ("Nick".data) ≠ [] ∧
    processMatch ⟨[], "<b>Nick</b>".data⟩ ⟨"<b>Nick</b>".data, "Nick".data, "bold", 0, 11⟩ =
      ⟨[⟨⟨processVocalistName (stripLeadingWith "Nick".data)⟩, "bold"⟩],
       replaceFirstSub "<b>Nick</b>".data removedMarker "<b>Nick</b>".data⟩ :=
  ⟨by decide,
   (c2_kept_match_removal ⟨[], "<b>Nick</b>".data⟩
     ⟨"<b>Nick</b>".data, "Nick".data, "bold", 0, 11⟩).2 (by decide)⟩

/-- Tag stripping is the identity on text without an opening angle. -/
theorem stripTagsGo_no_lt (fuel : Nat) :
    ∀ t : Str, '<' ∉ t → t.length ≤ fuel → stripTagsGo fuel t = t := by
  induction fuel with
  | zero =>
    intro t h hl
    cases t with
    | nil => rfl
    | cons c rest => simp at hl
  | succ f ih =>
    intro t h hl
    cases t with
    | nil => rfl
    | cons c rest =>
      have hc : ¬ c = '<' := fun hc => h (hc ▸ List.mem_cons_self c rest)
      have hr : '<' ∉ rest := fun hm => h (List.mem_cons_of_mem c hm)
      simp only [stripTagsGo, if_neg hc]
      rw [ih rest hr (by simpa using Nat.le_of_succ_le_succ hl)]

/-- Tag stripping drops one trailing closing marker after clean text. -/
theorem stripTagsGo_close (x : Char) (hx : ¬ x = '>') (fuel : Nat) :
    ∀ t : Str, '<' ∉ t → t.length + 4 ≤ fuel →
      stripTagsGo fuel (t ++ ['<', '/', x, '>']) = t := by
  induction fuel with
  | zero => intro t h hl; omega
  | succ f ih =>
    intro t h hl
    cases t with
    | nil =>
      have ha : afterChar? '>' ['/', x, '>'] = some [] := by
        simp [afterChar?, hx]
      show stripTagsGo (f + 1) ('<' :: ['/', x, '>']) = []
      simp only [stripTagsGo, if_pos rfl, ha]
      cases f <;> rfl
    | cons c rest =>
      have hc : ¬ c = '<' := fun hc => h (hc ▸ List.mem_cons_self c rest)
      have hr : '<' ∉ rest := fun hm => h (List.mem_cons_of_mem c hm)
      show stripTagsGo (f + 1) (c :: (rest ++ ['<', '/', x, '>'])) = c :: rest
      simp only [stripTagsGo, if_neg hc]
      exact congrArg (c :: ·) (ih rest hr (by simp at hl ⊢; omega))

/-- Tag stripping consumes a leading marker whose middle character is not
a closing angle. -/
theorem stripTagsGo_open (fuel : Nat) (c : Char) (hc : ¬ c = '>') (t : Str) :
    stripTagsGo (fuel + 1) ('<' :: c :: '>' :: t) = stripTagsGo fuel t := by
  have ha : afterChar? '>' (c :: '>' :: t) = some t := by
    simp [afterChar?, hc]
  simp [stripTagsGo, ha]

/-- C8 counterexample: the word count is not invariant under wrapping for
every line text.  A bare lower-than sign survives stripping in the bare
text but, once the text is wrapped, pairs with the greater-than sign of
the closing marker into a tag-shaped chunk that is removed, changing the
count: the bare text counts three words, the wrapped text one. -/
theorem c8_counterexample :
    countWords (jsTrim (stripTags (wrapB "a < b".data))) = 1 ∧
    countWords (jsTrim (stripTags "a < b".data)) = 3 ∧
    countWords (jsTrim (stripTags (wrapB "a < b".data))) ≠
      countWords (jsTrim (stripTags "a < b".data)) := by
  decide

/-- C8 amended: for a line text free of the opening angle character, the
word count obtained after stripping tags, trimming and splitting on
whitespace runs is the same for the bare text and for the text wrapped in
either the bold or the italic markers. -/
theorem c8_wrap_invariance (t : Str) (h : '<' ∉ t) :
    countWords (jsTrim (stripTags (wrapB t))) = countWords (jsTrim (stripTags t)) ∧
    countWords (jsTrim (stripTags (wrapI t))) = countWords (jsTrim (stripTags t)) := by
  have hbare : stripTags t = t := stripTagsGo_no_lt t.length t h le_rfl
  have hwrap : ∀ (x : Char), ¬ x = '>' → ('<' :: x :: '>' :: (t ++ ['<', '/', x, '>'])).length = (t.length + 6) + 1 := by
    intro x _; simp
  have hb : stripTags (wrapB t) = t := by
    have e1 : wrapB t = '<' :: 'b' :: '>' :: (t ++ ['<', '/', 'b', '>']) := rfl
    rw [stripTags, e1, hwrap 'b' (by decide), stripTagsGo_open _ 'b' (by decide),
      stripTagsGo_close 'b' (by decide) _ t h (by omega)]
  have hi : stripTags (wrapI t) = t := by
    have e1 : wrapI t = '<' :: 'i' :: '>' :: (t ++ ['<', '/', 'i', '>']) := rfl
    rw [stripTags, e1, hwrap 'i' (by decide), stripTagsGo_open _ 'i' (by decide),
      stripTagsGo_close 'i' (by decide) _ t h (by omega)]
  rw [hb, hi, hbare]
  exact ⟨rfl, rfl⟩

/-- Witness for the amended C8 theorem: the sample sentence has no
opening angle, both counts agree, and the count is four. -/
theorem c8_wrap_invariance_witness :
    ('<' ∉ "This is five words".data) ∧
    (countWords (jsTrim (stripTags (wrapB "This is five words".data))) =
        countWords (jsTrim (stripTags "This is five words".data)) ∧
     countWords (jsTrim (stripTags (wrapI "This is five words".data))) =
        countWords (jsTrim (stripTags "This is five words".data))) ∧
    countWords (jsTrim (stripTags "This is five words".data)) = 4 :=
  ⟨by decide, c8_wrap_invariance "This is five words".data (by decide), by decide⟩

/-- C1: on the sample section with one bold vocalist and three
consecutive lyric lines where only the first opens the bold marker and
only the third closes it, all three lines are attributed to that
vocalist, the statistics show three lines for it, and the open-tag state
is closed again after the third line.  In general, on a nonblank
non-header line processed while the open-tag state remembers a tag and a
vocalist, the line is attributed to the remembered vocalist, and the
state returns to closed exactly when the line text holds the matching
close marker. -/
theorem c1_open_span_attribution :
    (parseVocalists (jsTrim " <b>AJ</b>".data) = [("AJ", "bold")] ∧
     (parseLyricsWithVocalists c1Text).parsedLyrics.map (fun e => e.vocalist) =
        ["AJ", "AJ", "AJ"] ∧
     (parseLyricsWithVocalists c1Text).vocalistStats = [("AJ", ⟨3, 6⟩)] ∧
     c1FinalState.openFormattingTag = none ∧ c1FinalState.openTagVocalist = none) ∧
    (∀ (st : ParseState) (l : Str) (tag voc : String),
      st.openFormattingTag = some tag → st.openTagVocalist = some voc →
      tag ≠ "" → voc ≠ "" → st.currentVocalists ≠ [] →
      jsTrim l ≠ [] → headerContent? (jsTrim l) = none →
      ((processLine st l).result = st.result ++ [⟨voc, ⟨jsTrim l⟩⟩] ∧
       ((processLine st l).openFormattingTag = none ∧
          (processLine st l).openTagVocalist = none ↔
        containsSub ("</" ++ tag ++ ">").data (jsTrim l) = true) ∧
       (containsSub ("</" ++ tag ++ ">").data (jsTrim l) = false →
        (processLine st l).openFormattingTag = some tag ∧
          (processLine st l).openTagVocalist = some voc))) := by
  constructor
  · exact ⟨by decide, by decide, by decide, by decide, by decide⟩
  · intro st l tag voc h1 h2 h3 h4 h5 h6 h7
    simp only [processLine, if_neg h6, h7]
    by_cases hcl : containsSub ('<' :: '/' :: (tag.data ++ ['>'])) (jsTrim l) = true
    · simp [processLyric, if_neg h5, h1, h2, optTruthy, h3, h4, hcl]
    · simp [processLyric, if_neg h5, h1, h2, optTruthy, h3, h4, hcl]

/-- Witness for the general part of the C1 theorem at a concrete open
state and a concrete closing line. -/
theorem c1_open_span_attribution_witness :
    (⟨[("AJ", "bold")], some "b", some "AJ", [], []⟩ : ParseState).openFormattingTag =
        some "b" ∧
    (⟨[("AJ", "bold")], some "b", some "AJ", [], []⟩ : ParseState).openTagVocalist =
        some "AJ" ∧
    ("b" : String) ≠ "" ∧ ("AJ" : String) ≠ "" ∧
    (⟨[("AJ", "bold")], some "b", some "AJ", [], []⟩ : ParseState).currentVocalists ≠ [] ∧
    jsTrim "done</b>".data ≠ [] ∧
    headerContent? (jsTrim "done</b>".data) = none ∧
    ((processLine ⟨[("AJ", "bold")], some "b", some "AJ", [], []⟩ "done</b>".data).result =
        ([] : List AttributedLine) ++ [⟨"AJ", ⟨jsTrim "done</b>".data⟩⟩] ∧
     ((processLine ⟨[("AJ", "bold")], some "b", some "AJ", [], []⟩ "done</b>".data).openFormattingTag = none ∧
        (processLine ⟨[("AJ", "bold")], some "b", some "AJ", [], []⟩ "done</b>".data).openTagVocalist = none ↔
      containsSub ("</" ++ "b" ++ ">").data (jsTrim "done</b>".data) = true) ∧
     (containsSub ("</" ++ "b" ++ ">").data (jsTrim "done</b>".data) = false →
      (processLine ⟨[("AJ", "bold")], some "b", some "AJ", [], []⟩ "done</b>".data).openFormattingTag = some "b" ∧
        (processLine ⟨[("AJ", "bold")], some "b", some "AJ", [], []⟩ "done</b>".data).openTagVocalist = some "AJ")) :=
  ⟨by decide, by decide, by decide, by decide, by decide, by decide, by decide,
   c1_open_span_attribution.2 ⟨[("AJ", "bold")], some "b", some "AJ", [], []⟩
     "done</b>".data "b" "AJ" (by decide) (by decide) (by decide) (by decide)
     (by decide) (by decide) (by decide)⟩

/-- C3: a header line always resets the open-tag state, never touches the
statistics or the attributed lines, and replaces the active vocalist map
exactly when its bracketed content holds a colon, in which case the new
map is the parse of the trimmed text after the first colon; a header
without a colon leaves the active map unchanged. -/
theorem c3_header_frame (st : ParseState) (l : Str) (c : Str)
    (h : headerContent? (jsTrim l) = some c) :
    (processLine st l).openFormattingTag = none ∧
    (processLine st l).openTagVocalist = none ∧
    (processLine st l).vocalistStats = st.vocalistStats ∧
    (processLine st l).result = st.result ∧
    (processLine st l).currentVocalists =
      (match afterColon? c with
       | some a => parseVocalists (jsTrim a)
       | none => st.currentVocalists) := by
  have hne : jsTrim l ≠ [] := by
    intro he
    rw [he] at h
    simp [headerContent?] at h
  simp only [processLine, if_neg hne, h]
  cases hac : afterColon? c <;> simp [processHeader, hac]

/-- Witness for the C3 theorem at a concrete header line with a colon. -/
theorem c3_header_frame_witness :
    headerContent? (jsTrim "[Verse 1: Nick]".data) = some "Verse 1: Nick".data ∧
    ((processLine initState "[Verse 1: Nick]".data).openFormattingTag = none ∧
     (processLine initState "[Verse 1: Nick]".data).openTagVocalist = none ∧
     (processLine initState "[Verse 1: Nick]".data).vocalistStats = initState.vocalistStats ∧
     (processLine initState "[Verse 1: Nick]".data).result = initState.result ∧
     (processLine initState "[Verse 1: Nick]".data).currentVocalists =
       (match afterColon? "Verse 1: Nick".data with
        | some a => parseVocalists (jsTrim a)
        | none => initState.currentVocalists)) :=
  ⟨by decide,
   (c3_header_frame initState "[Verse 1: Nick]".data "Verse 1: Nick".data (by decide)).1,
   (c3_header_frame initState "[Verse 1: Nick]".data "Verse 1: Nick".data (by decide)).2.1,
   (c3_header_frame initState "[Verse 1: Nick]".data "Verse 1: Nick".data (by decide)).2.2.1,
   (c3_header_frame initState "[Verse 1: Nick]".data "Verse 1: Nick".data (by decide)).2.2.2.1,
   (c3_header_frame initState "[Verse 1: Nick]".data "Verse 1: Nick".data (by decide)).2.2.2.2⟩

/-- The reduction of the summarizer over the lines counters is a sum. -/
theorem foldl_add_lines (stats : List (String × VStats)) (n : Nat) :
    stats.foldl (fun sum s => sum + s.2.lines) n =
      n + (stats.map (fun p => p.2.lines)).sum := by
  induction stats generalizing n with
  | nil => simp
  | cons p rest ih => simp [ih]; omega

/-- The reduction of the summarizer over the words counters is a sum. -/
theorem foldl_add_words (stats : List (String × VStats)) (n : Nat) :
    stats.foldl (fun sum s => sum + s.2.words) n =
      n + (stats.map (fun p => p.2.words)).sum := by
  induction stats generalizing n with
  | nil => simp
  | cons p rest ih => simp [ih]; omega

/-- C4 counterexample: the percentages of the summary are not the
exactly rounded values of counter over total times one hundred.  For a
vocalist with twenty-three lines out of a total of eighty, the exact
value is 28.75 percent, which rounds to one decimal as 28.8 under the
tie-to-larger rule of toFixed, but the program computes the quotient and
product in binary64, where 23 / 80 * 100 is 28.749999999999996, and
prints 28.7. -/
theorem c4_counterexample :
    (generateStatsSummary [("A", ⟨23, 23⟩), ("B", ⟨57, 57⟩)]).totalLines = 80 ∧
    ("A", (⟨JsVal.str "28.7", JsVal.str "28.7", 23, 23⟩ : SummaryEntry)) ∈
      (generateStatsSummary [("A", ⟨23, 23⟩), ("B", ⟨57, 57⟩)]).vocalistStats ∧
    exactPercentString 23 80 = "28.8" ∧
    ("28.7" : String) ≠ "28.8" := by
  decide

/-- C4 amended: in the summary, the totals are the sums of the
per-vocalist lines and words counters, the vocalist count is the number
of vocalist names, every vocalist keeps its counters next to percentage
fields that carry the counter over the corresponding total times one
hundred computed in binary64 floating point and formatted by toFixed
with one digit when that total is positive — which can differ in the
last digit from the exactly rounded value — and the number zero when the
total is zero, and the empty input yields all-zero totals and an empty
mapping. -/
theorem c4_summary_contract (stats : List (String × VStats)) :
    (generateStatsSummary stats).totalLines = (stats.map (fun p => p.2.lines)).sum ∧
    (generateStatsSummary stats).totalWords = (stats.map (fun p => p.2.words)).sum ∧
    (generateStatsSummary stats).vocalistCount = stats.length ∧
    (∀ v s, (v, s) ∈ stats →
      (v, ⟨(if 0 < (stats.map (fun p => p.2.lines)).sum then
              JsVal.str (jsPercentString s.lines (stats.map (fun p => p.2.lines)).sum)
            else JsVal.num 0),
           (if 0 < (stats.map (fun p => p.2.words)).sum then
              JsVal.str (jsPercentString s.words (stats.map (fun p => p.2.words)).sum)
            else JsVal.num 0),
           s.lines, s.words⟩) ∈ (generateStatsSummary stats).vocalistStats) ∧
    generateStatsSummary [] = ⟨0, 0, 0, []⟩ := by
  have hl := foldl_add_lines stats 0
  have hw := foldl_add_words stats 0
  simp only [Nat.zero_add] at hl hw
  refine ⟨?_, ?_, rfl, ?_, rfl⟩
  · simpa [generateStatsSummary] using hl
  · simpa [generateStatsSummary] using hw
  · intro v s hm
    simp only [generateStatsSummary, hl, hw]
    exact List.mem_map_of_mem _ hm

/-- Witness for the amended C4 theorem at a concrete statistics object. -/
theorem c4_summary_contract_witness :
    (("A", (⟨1, 2⟩ : VStats)) ∈ [("A", (⟨1, 2⟩ : VStats)), ("B", ⟨3, 6⟩)]) ∧
    ("A", (⟨(if 0 < ([("A", (⟨1, 2⟩ : VStats)), ("B", ⟨3, 6⟩)].map (fun p => p.2.lines)).sum then
              JsVal.str (jsPercentString (⟨1, 2⟩ : VStats).lines
                ([("A", (⟨1, 2⟩ : VStats)), ("B", ⟨3, 6⟩)].map (fun p => p.2.lines)).sum)
            else JsVal.num 0),
           (if 0 < ([("A", (⟨1, 2⟩ : VStats)), ("B", ⟨3, 6⟩)].map (fun p => p.2.words)).sum then
              JsVal.str (jsPercentString (⟨1, 2⟩ : VStats).words
                ([("A", (⟨1, 2⟩ : VStats)), ("B", ⟨3, 6⟩)].map (fun p => p.2.words)).sum)
            else JsVal.num 0),
           (⟨1, 2⟩ : VStats).lines, (⟨1, 2⟩ : VStats).words⟩ : SummaryEntry)) ∈
      (generateStatsSummary [("A", (⟨1, 2⟩ : VStats)), ("B", ⟨3, 6⟩)]).vocalistStats :=
  ⟨by decide,
   (c4_summary_contract [("A", (⟨1, 2⟩ : VStats)), ("B", ⟨3, 6⟩)]).2.2.2.1
     "A" ⟨1, 2⟩ (by decide)⟩

/-- C10: every vocalist of the input appears in the summary with a
percentage field that is a string (the binary64 quotient times one
hundred formatted by the one-digit toFixed) whenever the corresponding
total is positive, and is the number zero exactly when the corresponding
total is zero, so callers receive strings, not numbers, for every
non-degenerate input. -/
theorem c10_percentage_type_split (stats : List (String × VStats)) (v : String)
    (s : VStats) (h : (v, s) ∈ stats) :
    ∃ e : SummaryEntry, (v, e) ∈ (generateStatsSummary stats).vocalistStats ∧
      (0 < (generateStatsSummary stats).totalLines →
        e.linesPercentage = JsVal.str (jsPercentString s.lines
          (generateStatsSummary stats).totalLines) ∧
        e.linesPercentage.isStr = true) ∧
      ((generateStatsSummary stats).totalLines = 0 →
        e.linesPercentage = JsVal.num 0) ∧
      (0 < (generateStatsSummary stats).totalWords →
        e.wordsPercentage = JsVal.str (jsPercentString s.words
          (generateStatsSummary stats).totalWords) ∧
        e.wordsPercentage.isStr = true) ∧
      ((generateStatsSummary stats).totalWords = 0 →
        e.wordsPercentage = JsVal.num 0) := by
  refine ⟨_, List.mem_map_of_mem _ h, ?_, ?_, ?_, ?_⟩ <;> intro hc
  · constructor
    · simp only [generateStatsSummary] at hc ⊢
      rw [if_pos hc]
    · simp only [generateStatsSummary] at hc ⊢
      rw [if_pos hc]
      rfl
  · simp only [generateStatsSummary] at hc ⊢
    rw [if_neg (by omega)]
  · constructor
    · simp only [generateStatsSummary] at hc ⊢
      rw [if_pos hc]
    · simp only [generateStatsSummary] at hc ⊢
      rw [if_pos hc]
      rfl
  · simp only [generateStatsSummary] at hc ⊢
    rw [if_neg (by omega)]

/-- Witness for the C10 theorem at a concrete statistics object with
positive line total and zero word total. -/
theorem c10_percentage_type_split_witness :
    (("X", (⟨2, 0⟩ : VStats)) ∈ [("X", (⟨2, 0⟩ : VStats)), ("Y", ⟨1, 0⟩)]) ∧
    (∃ e : SummaryEntry,
      ("X", e) ∈ (generateStatsSummary [("X", (⟨2, 0⟩ : VStats)), ("Y", ⟨1, 0⟩)]).vocalistStats ∧
      (0 < (generateStatsSummary [("X", (⟨2, 0⟩ : VStats)), ("Y", ⟨1, 0⟩)]).totalLines →
        e.linesPercentage = JsVal.str (jsPercentString (⟨2, 0⟩ : VStats).lines
          (generateStatsSummary [("X", (⟨2, 0⟩ : VStats)), ("Y", ⟨1, 0⟩)]).totalLines) ∧
        e.linesPercentage.isStr = true) ∧
      ((generateStatsSummary [("X", (⟨2, 0⟩ : VStats)), ("Y", ⟨1, 0⟩)]).totalLines = 0 →
        e.linesPercentage = JsVal.num 0) ∧
      (0 < (generateStatsSummary [("X", (⟨2, 0⟩ : VStats)), ("Y", ⟨1, 0⟩)]).totalWords →
        e.wordsPercentage = JsVal.str (jsPercentString (⟨2, 0⟩ : VStats).words
          (generateStatsSummary [("X", (⟨2, 0⟩ : VStats)), ("Y", ⟨1, 0⟩)]).totalWords) ∧
        e.wordsPercentage.isStr = true) ∧
      ((generateStatsSummary [("X", (⟨2, 0⟩ : VStats)), ("Y", ⟨1, 0⟩)]).totalWords = 0 →
        e.wordsPercentage = JsVal.num 0)) :=
  ⟨by decide,
   c10_percentage_type_split [("X", (⟨2, 0⟩ : VStats)), ("Y", ⟨1, 0⟩)] "X" ⟨2, 0⟩ (by decide)⟩

/-- A header line never touches the attributed lines or the statistics. -/
theorem processHeader_frame (st : ParseState) (c : Str) :
    (processHeader st c).result = st.result ∧
    (processHeader st c).vocalistStats = st.vocalistStats := by
  cases hac : afterColon? c <;> simp [processHeader, hac]

/-- Each line step appends at most one attributed line. -/
theorem processLine_result_len (st : ParseState) (l : Str) :
    (processLine st l).result.length ≤ st.result.length + 1 := by
  by_cases h1 : jsTrim l = []
  · simp [processLine, h1]
  · cases h2 : headerContent? (jsTrim l) with
    | some c =>
      simp only [processLine, if_neg h1, h2]
      rw [(processHeader_frame st c).1]
      omega
    | none =>
      simp only [processLine, if_neg h1, h2]
      by_cases h3 : st.currentVocalists = []
      · simp [processLyric, h3]
      · simp [processLyric, h3, List.length_append]

/-- The line loop appends at most one attributed line per input line. -/
theorem foldl_result_len (lines : List Str) :
    ∀ st : ParseState,
      (lines.foldl processLine st).result.length ≤ st.result.length + lines.length := by
  induction lines with
  | nil => intro st; simp
  | cons l ls ih =>
    intro st
    have h1 := processLine_result_len st l
    have h2 := ih (processLine st l)
    simp only [List.foldl_cons, List.length_cons]
    omega

/-- C5: the parser is a total function of the input string — for every
input, malformed markers and all, it yields an attributed-lines list and
a statistics object, and the attributed-lines list is bounded by the
number of input lines.  Every operation of the embedding is structurally
recursive, so the run always terminates, and no branch of the source
throws: there is no error channel to model. -/
theorem c5_total_no_failure (s : String) :
    (parseLyricsWithVocalists s).parsedLyrics.length ≤
      (splitOnSub "\n".data s.data).length ∧
    parseLyricsWithVocalists s =
      ⟨(parseLyricsWithVocalists s).parsedLyrics,
       (parseLyricsWithVocalists s).vocalistStats⟩ := by
  constructor
  · have := foldl_result_len (splitOnSub "\n".data s.data) initState
    simpa [parseLyricsWithVocalists, initState] using this
  · rfl

/-- Looking up the bumped key reads the bumped counters: the first
occurrence of the key is incremented, or a fresh entry appended. -/
theorem statLookup_bump_self (stats : List (String × VStats)) (v : String) (wc : Nat) :
    statLookup (bumpStats stats v wc) v =
      some (match statLookup stats v with
            | none => ⟨1, wc⟩
            | some s => ⟨s.lines + 1, s.words + wc⟩) := by
  induction stats with
  | nil => simp [bumpStats, statLookup]
  | cons p rest ih =>
    obtain ⟨k, s0⟩ := p
    by_cases hk : k = v
    · subst hk
      simp [bumpStats, statLookup]
    · simpa [bumpStats, statLookup, hk] using ih

/-- Looking up any other key is unaffected by a bump. -/
theorem statLookup_bump_other (stats : List (String × VStats)) (v v' : String)
    (wc : Nat) (h : v' ≠ v) :
    statLookup (bumpStats stats v wc) v' = statLookup stats v' := by
  induction stats with
  | nil => simp [bumpStats, statLookup, Ne.symm h]
  | cons p rest ih =>
    obtain ⟨k, s0⟩ := p
    by_cases hk : k = v
    · subst hk
      simp [bumpStats, statLookup, Ne.symm h]
    · by_cases hk2 : k = v'
      · subst hk2
        simp [bumpStats, statLookup, hk]
      · simpa [bumpStats, statLookup, hk, hk2] using ih

/-- Appending one attributed line while bumping its vocalist by the word
count of its text preserves the consistency of statistics and lines. -/
theorem statsConsistent_append (res : List AttributedLine)
    (stats : List (String × VStats)) (h : StatsConsistent res stats)
    (voc : String) (txt : Str) :
    StatsConsistent (res ++ [⟨voc, ⟨txt⟩⟩])
      (bumpStats stats voc (countWords (jsTrim (stripTags txt)))) := by
  intro v
  have hwc : countWords (jsTrim (stripTags txt)) = lineWC (String.mk txt) := rfl
  by_cases hv : voc = v
  · subst hv
    rw [statLookup_bump_self, h voc]
    have hfl : vocLines (res ++ [⟨voc, ⟨txt⟩⟩]) voc =
        vocLines res voc ++ [⟨voc, ⟨txt⟩⟩] := by
      simp [vocLines, List.filter_append]
    simp only [statsOf, hfl]
    cases hvl : vocLines res voc with
    | nil => simp [hwc]
    | cons a as =>
      simp [List.length_append, List.map_append, List.sum_append, hwc]
      omega
  · have hb := statLookup_bump_other stats voc v
      (countWords (jsTrim (stripTags txt))) (Ne.symm hv)
    rw [hb, h v]
    have hfl : vocLines (res ++ [⟨voc, ⟨txt⟩⟩]) v = vocLines res v := by
      simp [vocLines, List.filter_append, hv]
    simp only [statsOf, hfl]

/-- Each line step preserves the consistency of the two outputs. -/
theorem processLine_consistent (st : ParseState) (l : Str)
    (h : StatsConsistent st.result st.vocalistStats) :
    StatsConsistent (processLine st l).result (processLine st l).vocalistStats := by
  by_cases h1 : jsTrim l = []
  · simpa [processLine, h1] using h
  · cases h2 : headerContent? (jsTrim l) with
    | some c =>
      cases hac : afterColon? c <;>
        simpa [processLine, if_neg h1, h2, processHeader, hac] using h
    | none =>
      by_cases h3 : st.currentVocalists = []
      · simpa [processLine, if_neg h1, h2, processLyric, h3] using h
      · simp only [processLine, if_neg h1, h2, processLyric, if_neg h3]
        exact statsConsistent_append st.result st.vocalistStats h _ (jsTrim l)

/-- The line loop preserves the consistency of the two outputs. -/
theorem foldl_consistent (lines : List Str) :
    ∀ st : ParseState, StatsConsistent st.result st.vocalistStats →
      StatsConsistent (lines.foldl processLine st).result
        (lines.foldl processLine st).vocalistStats := by
  induction lines with
  | nil => intro st h; exact h
  | cons l ls ih =>
    intro st h
    exact ih (processLine st l) (processLine_consistent st l h)

/-- C9: the two outputs of the parser are mutually consistent — for every
vocalist name, the statistics object holds an entry for it exactly when
some attributed line carries it, and that entry counts exactly the
attributed lines carrying it and the sum of their stripped word counts. -/
theorem c9_outputs_consistent (s : String) (v : String) :
    statLookup (parseLyricsWithVocalists s).vocalistStats v =
      statsOf (parseLyricsWithVocalists s).parsedLyrics v := by
  have hinit : StatsConsistent initState.result initState.vocalistStats := by
    intro v
    simp [statLookup, statsOf, vocLines, initState]
  exact foldl_consistent (splitOnSub "\n".data s.data) initState hinit v

end SingerStats
